import Mathlib

/-!
Shallow embedding of the `dwd_alerts` Rust crate (src/lib.rs): a client for the
DWD weather-alert JSON endpoint.  The transport layer (reqwest) is out of scope;
`WarningList.get_new` is modelled as a function of the fetched response body.
Rust panics (`unwrap`) are modelled by the `Panics` result type; chrono
`DateTime<Utc>` values are modelled by their epoch-millisecond value, which is
faithful for construction, equality and ordering as used by the crate.
-/

set_option maxRecDepth 40000

deriving instance DecidableEq for Except

namespace DwdAlerts

/-- Result of a Rust computation that may panic: `panicked` models a process
abort via `unwrap()`/`panic!`, `ok` a normal return. -/
inductive Panics (α : Type) where
  | panicked : Panics α
  | ok : α → Panics α
deriving DecidableEq, Repr

/-- Smallest epoch-millisecond value representable by chrono's
`NaiveDateTime` (corresponds to -262143-01-01T00:00:00). -/
def MIN_TIMESTAMP_MS : Int := -8334601228800000

/-- Largest epoch-millisecond value representable by chrono's
`NaiveDateTime` (corresponds to +262142-12-31T23:59:59.999). -/
def MAX_TIMESTAMP_MS : Int := 8210266876799999

/-- Models `chrono::NaiveDateTime::from_timestamp_millis`: succeeds exactly on
the representable range, returning the calendar time (represented by its
epoch-millisecond value). -/
def from_timestamp_millis (ms : Int) : Option Int :=
  if MIN_TIMESTAMP_MS ≤ ms ∧ ms ≤ MAX_TIMESTAMP_MS then some ms else none

/-- Wire shape of one alert record (struct `WarningRaw`, lib.rs lines 31-48).
`category` models the `type` field (serde rename), `category`/`level` are `u8`
in Rust and are produced only in `0..=255` by the decoder below. -/
structure WarningRaw where
  state : String
  category : Int
  level : Int
  start : Int
  «end» : Option Int
  region_name : String
  event : String
  headline : String
  instruction : String
  description : String
  state_short : String
  altitude_start : Option Int
  altitude_end : Option Int
deriving DecidableEq, Repr

/-- Wire shape of the whole response (struct `WarningResponse`, lib.rs lines
50-58).  The `warnings` HashMap is modelled as an association list in one
iteration order; `vorab_information : HashMap<(), ()>` can only ever be the
empty map (see `decodeUnitMap`). -/
structure WarningResponse where
  time : Int
  warnings : List (String × List WarningRaw)
  vorab_information : List (Unit × Unit)
  copyright : String
deriving DecidableEq, Repr

/-- Domain entity `Warning` (lib.rs lines 59-76); `start`/`end` are
`DateTime<Utc>` values, modelled by their epoch milliseconds. -/
structure Warning where
  state : String
  category : Int
  level : Int
  start : Int
  «end» : Option Int
  region_name : String
  event : String
  headline : String
  instruction : String
  description : String
  state_short : String
  altitude_start : Option Int
  altitude_end : Option Int
deriving DecidableEq, Repr

/-- Domain entity `WarningList` (lib.rs lines 121-128). -/
structure WarningList where
  time : Int
  warnings : List Warning
  copyright : String
deriving DecidableEq, Repr

/-- Models `Warning::is_current` (lib.rs lines 79-88).  `Utc::now()` is made an
explicit argument `now` (epoch milliseconds of the evaluation moment). -/
def Warning.is_current (self : Warning) (now : Int) : Bool :=
  match self.«end» with
  | none => true
  | some endtime => decide (now < endtime)

/-- Models `impl From<WarningRaw> for Warning` (lib.rs lines 91-119).  The two
`unwrap()` calls on `from_timestamp_millis` become the `panicked` outcomes. -/
def Warning.fromRaw (value : WarningRaw) : Panics Warning :=
  match from_timestamp_millis value.start with
  | none => .panicked
  | some start =>
    match value.«end» with
    | none =>
      .ok { state := value.state, category := value.category, level := value.level,
            start := start, «end» := none, region_name := value.region_name,
            event := value.event, headline := value.headline,
            instruction := value.instruction, description := value.description,
            state_short := value.state_short, altitude_start := value.altitude_start,
            altitude_end := value.altitude_end }
    | some c =>
      match from_timestamp_millis c with
      | none => .panicked
      | some t =>
        .ok { state := value.state, category := value.category, level := value.level,
              start := start, «end» := some t, region_name := value.region_name,
              event := value.event, headline := value.headline,
              instruction := value.instruction, description := value.description,
              state_short := value.state_short, altitude_start := value.altitude_start,
              altitude_end := value.altitude_end }

/-- The error enum (lib.rs lines 11-17).  The serde error payload is modelled
by its message; the reqwest payload is dropped. -/
inductive Error where
  | DeserializationError : String → Error
  | ResponseProcessingError : Error
  | RequestResponseError : Error
  | DateParsingError : Error
deriving DecidableEq, Repr

/-- Maps a possibly-panicking function over a list, propagating a panic; models
the map/push loop of `TryFrom<WarningResponse>` (lib.rs lines 184-187). -/
def mapPanics (f : α → Panics β) : List α → Panics (List β)
  | [] => .ok []
  | a :: as =>
    match f a with
    | .panicked => .panicked
    | .ok b =>
      match mapPanics f as with
      | .panicked => .panicked
      | .ok bs => .ok (b :: bs)

/-- The flattening of the per-group map done by the two nested `for` loops of
`TryFrom<WarningResponse>` (lib.rs lines 176-180): the group keys are dropped
and the group contents concatenated in iteration order. -/
def flattenWarnings (value : WarningResponse) : List WarningRaw :=
  (value.warnings.map Prod.snd).flatten

/-- Models `impl TryFrom<WarningResponse> for WarningList` (lib.rs lines
164-195): convert the response-level time (returning `DateParsingError` when
unrepresentable), flatten the groups, convert each raw warning (panicking on an
unrepresentable per-alert time). -/
def WarningList.tryFromResponse (value : WarningResponse) :
    Panics (Except Error WarningList) :=
  match from_timestamp_millis value.time with
  | none => .ok (.error Error.DateParsingError)
  | some time =>
    match mapPanics Warning.fromRaw (flattenWarnings value) with
    | .panicked => .panicked
    | .ok warnings => .ok (.ok { time := time, warnings := warnings, copyright := value.copyright })

/-- Models `impl IntoIterator for WarningList` (lib.rs lines 197-204): iterating
a `WarningList` yields its `warnings` vector in order. -/
def WarningList.into_iter (self : WarningList) : List Warning :=
  self.warnings

/-! JSON layer: a model of `serde_json`.  `Json` is the document model; the
text parser models `serde_json`'s syntax layer, and the decoders below model
the derived `Deserialize` implementations for `WarningRaw` / `WarningResponse`
(camelCase field names, the `type` rename, `Option` fields defaulting to
`None`, `u8`/`i64` range checks, and `HashMap<(), ()>` accepting only the
empty object, since unit cannot be deserialized from a string map key). -/

inductive Json where
  | null : Json
  | bool (b : Bool) : Json
  | num (v : Int) (isInt : Bool) : Json
  | str (s : String) : Json
  | arr (elems : List Json) : Json
  | obj (members : List (String × Json)) : Json

/-- Left brace character, written via its code point. -/
def lbraceChar : Char := Char.ofNat 123

/-- Right brace character, written via its code point. -/
def rbraceChar : Char := Char.ofNat 125

/-- Strips an expected character sequence from the front of a character list
(also models Rust's `str::strip_prefix` on the envelope constants). -/
def dropPfxChars : List Char → List Char → Option (List Char)
  | [], s => some s
  | _ :: _, [] => none
  | p :: ps, c :: cs => if p = c then dropPfxChars ps cs else none

/-- JSON whitespace. -/
def isJsonWs (c : Char) : Bool :=
  c == ' ' || c == '\t' || c == '\n' || c == '\r'

/-- Drops leading JSON whitespace. -/
def skipWs : List Char → List Char
  | [] => []
  | c :: cs => if isJsonWs c then skipWs cs else c :: cs

/-- Value of a hexadecimal digit. -/
def hexVal (c : Char) : Option Nat :=
  if '0' ≤ c ∧ c ≤ '9' then some (c.toNat - 48)
  else if 'a' ≤ c ∧ c ≤ 'f' then some (c.toNat - 87)
  else if 'A' ≤ c ∧ c ≤ 'F' then some (c.toNat - 55)
  else none

/-- Single-character JSON string escapes. -/
def escChar (e : Char) : Option Char :=
  if e = '"' then some '"'
  else if e = '\\' then some '\\'
  else if e = '/' then some '/'
  else if e = 'b' then some (Char.ofNat 8)
  else if e = 'f' then some (Char.ofNat 12)
  else if e = 'n' then some '\n'
  else if e = 'r' then some '\r'
  else if e = 't' then some '\t'
  else none

/-- Parses the body of a JSON string after the opening quote, returning the
decoded characters and the remaining input after the closing quote. -/
def parseStringBody : List Char → Option (List Char × List Char)
  | [] => none
  | c :: cs =>
    if c = '"' then some ([], cs)
    else if c = '\\' then
      match cs with
      | [] => none
      | e :: cs1 =>
        if e = 'u' then
          match cs1 with
          | h1 :: h2 :: h3 :: h4 :: cs2 =>
            match hexVal h1, hexVal h2, hexVal h3, hexVal h4 with
            | some a, some b, some c3, some d =>
              match parseStringBody cs2 with
              | some (s, r) => some (Char.ofNat (((a * 16 + b) * 16 + c3) * 16 + d) :: s, r)
              | none => none
            | _, _, _, _ => none
          | _ => none
        else
          match escChar e with
          | none => none
          | some ec =>
            match parseStringBody cs1 with
            | some (s, r) => some (ec :: s, r)
            | none => none
    else if c.toNat < 32 then none
    else
      match parseStringBody cs with
      | some (s, r) => some (c :: s, r)
      | none => none

/-- Splits the longest run of decimal digits off the front. -/
def takeDigits : List Char → List Char × List Char
  | [] => ([], [])
  | c :: cs =>
    if c.isDigit then
      let (d, r) := takeDigits cs
      (c :: d, r)
    else ([], c :: cs)

/-- Numeric value of a digit run. -/
def digitsVal (ds : List Char) : Nat :=
  ds.foldl (fun a c => a * 10 + (c.toNat - 48)) 0

/-- Parses an optional fraction part, reporting whether one was present. -/
def parseFrac (cs : List Char) : Option (Bool × List Char) :=
  match cs with
  | c :: r =>
    if c = '.' then
      let (fs, r2) := takeDigits r
      if fs.isEmpty then none else some (true, r2)
    else some (false, cs)
  | [] => some (false, [])

/-- Parses an optional exponent part, reporting whether one was present. -/
def parseExp (cs : List Char) : Option (Bool × List Char) :=
  match cs with
  | c :: r =>
    if c = 'e' ∨ c = 'E' then
      let r1 := match r with
        | s :: r' => if s = '+' ∨ s = '-' then r' else r
        | [] => r
      let (es, r2) := takeDigits r1
      if es.isEmpty then none else some (true, r2)
    else some (false, cs)
  | [] => some (false, [])

/-- Parses a JSON number.  A number with a fraction or exponent part is a
float in `serde_json`; it is marked non-integral (the stored mantissa is then
irrelevant: every integer decoder rejects it). -/
def parseNumber (cs : List Char) : Option (Json × List Char) :=
  let (neg, cs1) : Bool × List Char :=
    match cs with
    | c :: r => if c = '-' then (true, r) else (false, cs)
    | [] => (false, cs)
  let (ds, cs2) := takeDigits cs1
  match ds with
  | [] => none
  | d0 :: drest =>
    if d0 = '0' ∧ drest ≠ [] then none
    else
      match parseFrac cs2 with
      | none => none
      | some (hasFrac, cs3) =>
        match parseExp cs3 with
        | none => none
        | some (hasExp, cs4) =>
          let m : Int := (digitsVal ds : Int)
          some (.num (if neg then -m else m) (!hasFrac && !hasExp), cs4)

mutual

/-- Parses one JSON value; `fuel` bounds the recursion depth (two units per
nesting level are ample, see `parseJson`). -/
def parseVal : Nat → List Char → Option (Json × List Char)
  | 0, _ => none
  | fuel + 1, cs =>
    match skipWs cs with
    | [] => none
    | c :: rest =>
      if c = lbraceChar then
        match skipWs rest with
        | [] => none
        | d :: rest' =>
          if d = rbraceChar then some (.obj [], rest')
          else
            match parseMembers fuel (d :: rest') with
            | some (ms, r) => some (.obj ms, r)
            | none => none
      else if c = '[' then
        match skipWs rest with
        | [] => none
        | d :: rest' =>
          if d = ']' then some (.arr [], rest')
          else
            match parseElems fuel (d :: rest') with
            | some (es, r) => some (.arr es, r)
            | none => none
      else if c = '"' then
        match parseStringBody rest with
        | some (s, r) => some (.str (String.mk s), r)
        | none => none
      else if c = 'n' then
        match dropPfxChars ['u', 'l', 'l'] rest with
        | some r => some (.null, r)
        | none => none
      else if c = 't' then
        match dropPfxChars ['r', 'u', 'e'] rest with
        | some r => some (.bool true, r)
        | none => none
      else if c = 'f' then
        match dropPfxChars ['a', 'l', 's', 'e'] rest with
        | some r => some (.bool false, r)
        | none => none
      else parseNumber (c :: rest)

/-- Parses the non-empty element list of an array, up to and including `]`. -/
def parseElems : Nat → List Char → Option (List Json × List Char)
  | 0, _ => none
  | fuel + 1, cs =>
    match parseVal fuel cs with
    | none => none
    | some (j, r) =>
      match skipWs r with
      | [] => none
      | c :: r' =>
        if c = ',' then
          match parseElems fuel r' with
          | none => none
          | some (js, r2) => some (j :: js, r2)
        else if c = ']' then some ([j], r')
        else none

/-- Parses the non-empty member list of an object, up to and including the
closing brace. -/
def parseMembers : Nat → List Char → Option (List (String × Json) × List Char)
  | 0, _ => none
  | fuel + 1, cs =>
    match skipWs cs with
    | [] => none
    | c :: r =>
      if c = '"' then
        match parseStringBody r with
        | none => none
        | some (k, r1) =>
          match skipWs r1 with
          | [] => none
          | d :: r2 =>
            if d = ':' then
              match parseVal fuel r2 with
              | none => none
              | some (v, r3) =>
                match skipWs r3 with
                | [] => none
                | e :: r4 =>
                  if e = ',' then
                    match parseMembers fuel r4 with
                    | none => none
                    | some (ms, r5) => some ((String.mk k, v) :: ms, r5)
                  else if e = rbraceChar then some ([(String.mk k, v)], r4)
                  else none
            else none
      else none

end

/-- Parses a complete JSON document: one value with only trailing whitespace
allowed, as `serde_json::from_str` requires. -/
def parseJson (s : String) : Option Json :=
  match parseVal (2 * s.length + 2) s.data with
  | none => none
  | some (j, r) => if (skipWs r).isEmpty then some j else none

/-! Decoders modelling the derived `Deserialize` implementations. -/

/-- Maps a fallible decoder over a list, failing on the first error (how serde
deserializes a JSON array or the entries of a map). -/
def mapExcept (f : α → Except ε β) : List α → Except ε (List β)
  | [] => .ok []
  | a :: as =>
    match f a with
    | .error e => .error e
    | .ok b =>
      match mapExcept f as with
      | .error e => .error e
      | .ok bs => .ok (b :: bs)

/-- First value stored under a field name in a decoded JSON object. -/
def getField (fields : List (String × Json)) (name : String) : Option Json :=
  List.lookup name fields

/-- Decodes an `i64`: an integral JSON number in the `i64` range (floats and
out-of-range values fail). -/
def decI64 (j : Json) : Except String Int :=
  match j with
  | .num v true =>
    if -(2 ^ 63) ≤ v ∧ v < 2 ^ 63 then .ok v else .error "invalid value: integer out of range of i64"
  | _ => .error "invalid type: expected i64"

/-- Decodes a `u8`: an integral JSON number in `0..=255`. -/
def decU8 (j : Json) : Except String Int :=
  match j with
  | .num v true =>
    if 0 ≤ v ∧ v ≤ 255 then .ok v else .error "invalid value: integer out of range of u8"
  | _ => .error "invalid type: expected u8"

/-- Decodes a string. -/
def decString (j : Json) : Except String String :=
  match j with
  | .str s => .ok s
  | _ => .error "invalid type: expected string"

/-- Decodes an `Option<i64>` from a present value (`null` is `None`). -/
def decOptI64 (j : Json) : Except String (Option Int) :=
  match j with
  | .null => .ok none
  | _ =>
    match decI64 j with
    | .ok v => .ok (some v)
    | .error e => .error e

/-- Looks up a required field and decodes it; a missing field is an error. -/
def reqField (fields : List (String × Json)) (name : String)
    (dec : Json → Except String α) : Except String α :=
  match getField fields name with
  | some j => dec j
  | none => .error ("missing field " ++ name)

/-- Looks up an `Option<i64>` field; serde defaults a missing `Option` field
to `None`. -/
def optI64Field (fields : List (String × Json)) (name : String) :
    Except String (Option Int) :=
  match getField fields name with
  | some j => decOptI64 j
  | none => .ok none

/-- Decoder for `WarningRaw` (serde derive with `rename_all = "camelCase"` and
`rename = "type"` on `category`). -/
def decodeWarningRaw (j : Json) : Except String WarningRaw :=
  match j with
  | .obj fields => do
    let state ← reqField fields "state" decString
    let category ← reqField fields "type" decU8
    let level ← reqField fields "level" decU8
    let start ← reqField fields "start" decI64
    let e ← optI64Field fields "end"
    let region_name ← reqField fields "regionName" decString
    let event ← reqField fields "event" decString
    let headline ← reqField fields "headline" decString
    let instruction ← reqField fields "instruction" decString
    let description ← reqField fields "description" decString
    let state_short ← reqField fields "stateShort" decString
    let altitude_start ← optI64Field fields "altitudeStart"
    let altitude_end ← optI64Field fields "altitudeEnd"
    .ok { state := state, category := category, level := level, start := start,
          «end» := e, region_name := region_name, event := event,
          headline := headline, instruction := instruction,
          description := description, state_short := state_short,
          altitude_start := altitude_start, altitude_end := altitude_end }
  | _ => .error "invalid type: expected warning object"

/-- Decoder for the `warnings` map: every entry's value must decode as an
array of `WarningRaw`. -/
def decodeWarningsMap (j : Json) : Except String (List (String × List WarningRaw)) :=
  match j with
  | .obj fields =>
    mapExcept (fun kv =>
      match kv.2 with
      | .arr elems =>
        match mapExcept decodeWarningRaw elems with
        | .ok ws => .ok (kv.1, ws)
        | .error e => .error e
      | _ => .error "invalid type: expected array of warnings") fields
  | _ => .error "invalid type: expected warnings map"

/-- Decoder for `vorab_information : HashMap<(), ()>`: a JSON map key is a
string, and the unit type cannot be deserialized from a string, so any entry
fails; only the empty object decodes. -/
def decodeUnitMap (j : Json) : Except String (List (Unit × Unit)) :=
  match j with
  | .obj [] => .ok []
  | .obj (_ :: _) => .error "invalid type: string, expected unit"
  | _ => .error "invalid type: expected map"

/-- Decoder for `WarningResponse`. -/
def decodeWarningResponse (j : Json) : Except String WarningResponse :=
  match j with
  | .obj fields => do
    let time ← reqField fields "time" decI64
    let warnings ← reqField fields "warnings" decodeWarningsMap
    let vorab ← reqField fields "vorabInformation" decodeUnitMap
    let copyright ← reqField fields "copyright" decString
    .ok { time := time, warnings := warnings, vorab_information := vorab,
          copyright := copyright }
  | _ => .error "invalid type: expected response object"

/-- Models `serde_json::from_str::<WarningResponse>`. -/
def serde_from_str (s : String) : Except String WarningResponse :=
  match parseJson s with
  | none => .error "expected value"
  | some j => decodeWarningResponse j

/-! Envelope unwrapping and the top-level operation. -/

/-- Models Rust's `str::strip_prefix`. -/
def dropPfx (p s : String) : Option String :=
  match dropPfxChars p.data s.data with
  | some r => some (String.mk r)
  | none => none

/-- Models Rust's `str::strip_suffix` (via reversal). -/
def dropSfx (p s : String) : Option String :=
  match dropPfxChars p.data.reverse s.data.reverse with
  | some r => some (String.mk r.reverse)
  | none => none

/-- The literal envelope head `warnWetter.loadWarnings(` (lib.rs line 148). -/
def responseWrapperHead : String := "warnWetter.loadWarnings("

/-- The literal envelope tail `);` (lib.rs line 152). -/
def responseWrapperTail : String := ");"

/-- The processing applied to the unwrapped JSON payload in
`WarningList::get_new` (lib.rs lines 156-160): deserialize, convert, sort by
start time. -/
def processPayload (data : String) : Panics (Except Error WarningList) :=
  match serde_from_str data with
  | .error e => .ok (.error (.DeserializationError e))
  | .ok resp =>
    match WarningList.tryFromResponse resp with
    | .panicked => .panicked
    | .ok (.error e) => .ok (.error e)
    | .ok (.ok wl) =>
      .ok (.ok { wl with warnings := wl.warnings.mergeSort (fun a b => decide (a.start ≤ b.start)) })

/-- Models `WarningList::get_new` (lib.rs lines 146-161) as a function of the
fetched response body (the transport step and its `RequestResponseError` path
are outside the model). -/
def WarningList.get_new (raw_response : String) : Panics (Except Error WarningList) :=
  match dropPfx responseWrapperHead raw_response with
  | none => .ok (.error Error.ResponseProcessingError)
  | some d =>
    match dropSfx responseWrapperTail d with
    | none => .ok (.error Error.ResponseProcessingError)
    | some data => processPayload data

/-! Concrete inputs used by witnesses. -/

/-- The out-of-range raw warning from the crate's own `oob_date_fails` test
(lib.rs lines 231-249). -/
def oobRaw : WarningRaw :=
  { state := "", category := 69, level := 0, start := 7346982752374653336,
    «end» := none, region_name := "", event := "", headline := "",
    instruction := "", description := "", state_short := "",
    altitude_start := none, altitude_end := none }

/-- A well-formed raw warning (the scenario record from the spec, §8). -/
def c5Raw : WarningRaw :=
  { state := "Bavaria", category := 1, level := 2, start := 1700000100000,
    «end» := none, region_name := "Munich", event := "Storm",
    headline := "Storm Warning", instruction := "Stay inside",
    description := "Severe storm", state_short := "BY",
    altitude_start := none, altitude_end := none }

/-- The `Warning` that `c5Raw` maps to. -/
def c5Warn : Warning :=
  { state := "Bavaria", category := 1, level := 2, start := 1700000100000,
    «end» := none, region_name := "Munich", event := "Storm",
    headline := "Storm Warning", instruction := "Stay inside",
    description := "Severe storm", state_short := "BY",
    altitude_start := none, altitude_end := none }

/-- A raw warning with only the interesting fields varied, for list-level
witnesses. -/
def mkRaw (category level start : Int) (e : Option Int) : WarningRaw :=
  { state := "Bavaria", category := category, level := level, start := start,
    «end» := e, region_name := "Munich", event := "Storm",
    headline := "Storm Warning", instruction := "Stay inside",
    description := "Severe storm", state_short := "BY",
    altitude_start := none, altitude_end := none }

/-- The `Warning` that `mkRaw category level start e` maps to when the times
are in range. -/
def mkWarn (category level start : Int) (e : Option Int) : Warning :=
  { state := "Bavaria", category := category, level := level, start := start,
    «end» := e, region_name := "Munich", event := "Storm",
    headline := "Storm Warning", instruction := "Stay inside",
    description := "Severe storm", state_short := "BY",
    altitude_start := none, altitude_end := none }

/-- A two-group response used as the C6 witness input. -/
def c6Value : WarningResponse :=
  { time := 1700000000000,
    warnings := [("813073088", [mkRaw 1 2 30 none, mkRaw 1 2 10 none]),
                 ("803159016", [mkRaw 1 2 20 none])],
    vorab_information := [], copyright := "DWD" }

/-- The `WarningList` that `TryFrom` produces from `c6Value` (flattened in
iteration order, not yet sorted). -/
def c6List : WarningList :=
  { time := 1700000000000,
    warnings := [mkWarn 1 2 30 none, mkWarn 1 2 10 none, mkWarn 1 2 20 none],
    copyright := "DWD" }

/-- The spec's §8 scenario response text (one warning in one group), used as
the C3 witness input. -/
def c3Text : String :=
  "warnWetter.loadWarnings(\x7b\"time\":1700000000000,\"warnings\":\x7b\"MUNICH\":[\x7b\"state\":\"Bavaria\",\"type\":1,\"level\":2,\"start\":1700000100000,\"end\":null,\"regionName\":\"Munich\",\"event\":\"Storm\",\"headline\":\"Storm Warning\",\"instruction\":\"Stay inside\",\"description\":\"Severe storm\",\"stateShort\":\"BY\",\"altitudeStart\":null,\"altitudeEnd\":null\x7d]\x7d,\"vorabInformation\":\x7b\x7d,\"copyright\":\"DWD\"\x7d);"

/-- The `WarningList` produced from `c3Text`. -/
def c3List : WarningList :=
  { time := 1700000000000, warnings := [mkWarn 1 2 1700000100000 none],
    copyright := "DWD" }

/-- Response-object fields whose only flaw is an out-of-range `type` value,
used as the C9 witness input. -/
def c9Fields : List (String × Json) :=
  [("time", Json.num 1700000000000 true),
   ("warnings", Json.obj [("813073088", Json.arr [Json.obj [("type", Json.num 300 true)]])]),
   ("vorabInformation", Json.obj []),
   ("copyright", Json.str "DWD")]

/-- Response-object fields whose `vorabInformation` object is non-empty, used
as a C10 witness input. -/
def c10BadFields : List (String × Json) :=
  [("time", Json.num 1700000000000 true),
   ("warnings", Json.obj []),
   ("vorabInformation", Json.obj [("k", Json.null)]),
   ("copyright", Json.str "DWD")]

/-- Fully well-formed response-object fields (empty warnings map), used as a
C10 witness input. -/
def c10GoodFields : List (String × Json) :=
  [("time", Json.num 1700000000000 true),
   ("warnings", Json.obj []),
   ("vorabInformation", Json.obj []),
   ("copyright", Json.str "DWD")]

/-! Helper lemmas about `mapPanics`. -/

theorem mapPanics_ok_get? (f : α → Panics β) (l : List α) (bs : List β)
    (h : mapPanics f l = .ok bs) :
    ∀ i : Nat, (l[i]?).map f = (bs[i]?).map Panics.ok := by
  induction l generalizing bs with
  | nil =>
    injection h with h'
    subst h'
    intro i
    simp
  | cons a as ih =>
    intro i
    unfold mapPanics at h
    cases hfa : f a <;> rw [hfa] at h
    · cases h
    · rename_i b
      cases hrest : mapPanics f as <;> rw [hrest] at h
      · cases h
      · rename_i bs'
        injection h with h'
        subst h'
        cases i with
        | zero => simp [hfa]
        | succ n => simpa using ih bs' hrest n

theorem mapPanics_ok_length (f : α → Panics β) (l : List α) (bs : List β)
    (h : mapPanics f l = .ok bs) : bs.length = l.length := by
  induction l generalizing bs with
  | nil => injection h with h'; subst h'; rfl
  | cons a as ih =>
    unfold mapPanics at h
    cases hfa : f a <;> rw [hfa] at h
    · cases h
    · cases hrest : mapPanics f as <;> rw [hrest] at h
      · cases h
      · rename_i b bs'
        injection h with h'
        subst h'
        simp [ih bs' hrest]

/-! Claim theorems over the domain layer. -/

/-- C1. `Warning::is_current` returns true iff the end time is absent or
strictly after the evaluation moment `now`; in particular it is false when the
end is present and equals `now` or lies in the past, and true when absent. -/
theorem c1_is_current_iff (w : Warning) (now : Int) :
    w.is_current now = true ↔ (w.«end» = none ∨ ∃ e, w.«end» = some e ∧ now < e) := by
  cases h : w.«end» with
  | none => simp [Warning.is_current, h]
  | some e => simp [Warning.is_current, h]

/-- C2 counterexample. On the crate's own out-of-range test input, the
`From<WarningRaw> for Warning` mapping panics (aborts the process); it does not
return a recoverable `DateParsingError` — indeed its result channel has no
error variant at all, and a whole response containing such a record makes
`TryFrom<WarningResponse>` panic as well. -/
theorem c2_counterexample :
    Warning.fromRaw oobRaw = Panics.panicked ∧
    WarningList.tryFromResponse
        { time := 0, warnings := [("813073088", [oobRaw])],
          vorab_information := [], copyright := "DWD" } = Panics.panicked := by
  exact ⟨by decide, by decide⟩

/-- C2 amended. For every `WarningRaw` whose start or (present) end
millisecond value is outside the representable range of the calendar-time
conversion, the mapping step panics — aborting the whole process — rather than
returning a recoverable error. -/
theorem c2_amended_panics (value : WarningRaw)
    (h : from_timestamp_millis value.start = none ∨
         ∃ c, value.«end» = some c ∧ from_timestamp_millis c = none) :
    Warning.fromRaw value = Panics.panicked := by
  unfold Warning.fromRaw
  rcases h with h | ⟨c, hc, hnone⟩
  · rw [h]
  · rw [hc]
    split
    · rfl
    · simp [hnone]

/-- C2 witness: the amended claim applied to the crate's own test input. -/
theorem c2_witness : Warning.fromRaw oobRaw = Panics.panicked :=
  c2_amended_panics oobRaw (Or.inl (by decide))

/-- C5. Whenever a `WarningRaw` is mapped to a `Warning`, the eleven scalar
fields are copied verbatim. -/
theorem c5_scalar_fields (value : WarningRaw) (w : Warning)
    (h : Warning.fromRaw value = Panics.ok w) :
    w.state = value.state ∧ w.category = value.category ∧ w.level = value.level ∧
    w.region_name = value.region_name ∧ w.event = value.event ∧
    w.headline = value.headline ∧ w.instruction = value.instruction ∧
    w.description = value.description ∧ w.state_short = value.state_short ∧
    w.altitude_start = value.altitude_start ∧ w.altitude_end = value.altitude_end := by
  unfold Warning.fromRaw at h
  split at h
  · cases h
  · split at h
    · injection h with h'
      subst h'
      exact ⟨rfl, rfl, rfl, rfl, rfl, rfl, rfl, rfl, rfl, rfl, rfl⟩
    · split at h
      · cases h
      · injection h with h'
        subst h'
        exact ⟨rfl, rfl, rfl, rfl, rfl, rfl, rfl, rfl, rfl, rfl, rfl⟩

/-- C5 witness: the verbatim-copy property at the spec's scenario record. -/
theorem c5_witness :
    c5Warn.state = c5Raw.state ∧ c5Warn.category = c5Raw.category ∧
    c5Warn.level = c5Raw.level ∧ c5Warn.region_name = c5Raw.region_name ∧
    c5Warn.event = c5Raw.event ∧ c5Warn.headline = c5Raw.headline ∧
    c5Warn.instruction = c5Raw.instruction ∧ c5Warn.description = c5Raw.description ∧
    c5Warn.state_short = c5Raw.state_short ∧
    c5Warn.altitude_start = c5Raw.altitude_start ∧
    c5Warn.altitude_end = c5Raw.altitude_end :=
  c5_scalar_fields c5Raw c5Warn (by decide)

/-- C6. When `TryFrom<WarningResponse>` succeeds, its warnings are exactly the
images of the flattened raw warnings: position by position each `Warning` is
derived from exactly one `RawWarning` and every `RawWarning` yields exactly one
`Warning`, and each group's list survives in order (as a sublist) in the
flattened sequence. -/
theorem c6_flatten_bijection (value : WarningResponse) (wl : WarningList)
    (h : WarningList.tryFromResponse value = Panics.ok (Except.ok wl)) :
    (∀ i : Nat, ((flattenWarnings value)[i]?).map Warning.fromRaw =
        (wl.warnings[i]?).map Panics.ok) ∧
    wl.warnings.length = (flattenWarnings value).length ∧
    ∀ g ∈ value.warnings, List.Sublist g.2 (flattenWarnings value) := by
  unfold WarningList.tryFromResponse at h
  cases ht : from_timestamp_millis value.time <;> rw [ht] at h
  · injection h with h'
    cases h'
  · cases hm : mapPanics Warning.fromRaw (flattenWarnings value) <;> rw [hm] at h
    · cases h
    · injection h with h'
      injection h' with h''
      subst h''
      refine ⟨mapPanics_ok_get? _ _ _ hm, mapPanics_ok_length _ _ _ hm, ?_⟩
      intro g hg
      exact List.sublist_flatten_of_mem (List.mem_map_of_mem Prod.snd hg)

/-- C6 witness: a two-group response, flattened in iteration order. -/
theorem c6_witness :
    (∀ i : Nat, ((flattenWarnings c6Value)[i]?).map Warning.fromRaw =
        (c6List.warnings[i]?).map Panics.ok) ∧
    c6List.warnings.length = (flattenWarnings c6Value).length ∧
    ∀ g ∈ c6Value.warnings, List.Sublist g.2 (flattenWarnings c6Value) :=
  c6_flatten_bijection c6Value c6List (by decide)

/-- C8. The response-level timestamp conversion: an out-of-range value makes
`TryFrom<WarningResponse>` return `DateParsingError` to the caller (it does not
panic), and an in-range value is carried into the produced `WarningList`
unchanged (as the corresponding UTC calendar time). -/
theorem c8_response_time (value : WarningResponse) :
    ((value.time < MIN_TIMESTAMP_MS ∨ MAX_TIMESTAMP_MS < value.time) →
      WarningList.tryFromResponse value = Panics.ok (Except.error Error.DateParsingError)) ∧
    (MIN_TIMESTAMP_MS ≤ value.time ∧ value.time ≤ MAX_TIMESTAMP_MS →
      ∀ wl, WarningList.tryFromResponse value = Panics.ok (Except.ok wl) →
        wl.time = value.time) := by
  constructor
  · intro h
    have hnone : from_timestamp_millis value.time = none := by
      unfold from_timestamp_millis
      rw [if_neg]
      rcases h with h | h
      · exact fun hc => absurd hc.1 (not_le.mpr h)
      · exact fun hc => absurd hc.2 (not_le.mpr h)
    unfold WarningList.tryFromResponse
    rw [hnone]
  · intro h wl hwl
    have hsome : from_timestamp_millis value.time = some value.time := by
      unfold from_timestamp_millis
      rw [if_pos h]
    unfold WarningList.tryFromResponse at hwl
    rw [hsome] at hwl
    cases hm : mapPanics Warning.fromRaw (flattenWarnings value) <;> rw [hm] at hwl
    · cases hwl
    · injection hwl with h'
      injection h' with h''
      subst h''
      rfl

/-- C8 witness: an out-of-range and an in-range response-level time. -/
theorem c8_witness :
    WarningList.tryFromResponse
        { time := 9000000000000000000, warnings := [],
          vorab_information := [], copyright := "DWD" } =
      Panics.ok (Except.error Error.DateParsingError) ∧
    ({ time := 1700000000000, warnings := [], copyright := "DWD" } : WarningList).time =
      ({ time := 1700000000000, warnings := [], vorab_information := [],
         copyright := "DWD" } : WarningResponse).time :=
  ⟨(c8_response_time _).1 (Or.inr (by decide)),
   (c8_response_time _).2 (by decide) _ (by decide)⟩

/-! Envelope lemmas: stripping is exactly decomposition into
head ++ payload ++ tail. -/

theorem string_data_mk (l : List Char) : (String.mk l).data = l := rfl

theorem dropPfxChars_some_iff (p : List Char) :
    ∀ s r : List Char, (dropPfxChars p s = some r ↔ s = p ++ r) := by
  induction p with
  | nil =>
    intro s r
    simp [dropPfxChars]
  | cons a ps ih =>
    intro s r
    cases s with
    | nil => simp [dropPfxChars]
    | cons c cs =>
      by_cases hac : a = c
      · subst hac
        simp [dropPfxChars, ih cs r]
      · simp [dropPfxChars, hac]
        intro hca
        exact absurd hca.symm hac

theorem dropPfx_some_iff (p s r : String) :
    dropPfx p s = some r ↔ s.data = p.data ++ r.data := by
  unfold dropPfx
  cases h : dropPfxChars p.data s.data with
  | none =>
    simp only [Option.some.injEq]
    constructor
    · intro hc
      cases hc
    · intro hs
      rw [(dropPfxChars_some_iff p.data s.data r.data).mpr hs] at h
      cases h
  | some t =>
    have ht : s.data = p.data ++ t := (dropPfxChars_some_iff p.data s.data t).mp h
    simp only [Option.some.injEq]
    constructor
    · intro hr
      rw [← hr, string_data_mk, ht]
    · intro hs
      rw [ht] at hs
      have : t = r.data := List.append_cancel_left hs
      rw [this]

theorem dropSfx_some_iff (p s r : String) :
    dropSfx p s = some r ↔ s.data = r.data ++ p.data := by
  unfold dropSfx
  cases h : dropPfxChars p.data.reverse s.data.reverse with
  | none =>
    simp only [Option.some.injEq]
    constructor
    · intro hc
      cases hc
    · intro hs
      have : s.data.reverse = p.data.reverse ++ r.data.reverse := by
        rw [hs, List.reverse_append]
      rw [(dropPfxChars_some_iff p.data.reverse s.data.reverse r.data.reverse).mpr this] at h
      cases h
  | some t =>
    have ht : s.data.reverse = p.data.reverse ++ t := (dropPfxChars_some_iff _ _ t).mp h
    have hs : s.data = t.reverse ++ p.data := by
      have := congrArg List.reverse ht
      simpa using this
    simp only [Option.some.injEq]
    constructor
    · intro hr
      rw [← hr, string_data_mk, hs]
    · intro hseq
      rw [hs] at hseq
      have : t.reverse = r.data := List.append_cancel_right hseq
      rw [this]

theorem get_new_decomp (raw_response : String) (payload : List Char)
    (h : raw_response.data = responseWrapperHead.data ++ payload ++ responseWrapperTail.data) :
    WarningList.get_new raw_response = processPayload (String.mk payload) := by
  unfold WarningList.get_new
  split
  · rename_i h1
    have hc : dropPfx responseWrapperHead raw_response =
        some (String.mk (payload ++ responseWrapperTail.data)) := by
      rw [dropPfx_some_iff, string_data_mk, ← List.append_assoc]
      exact h
    rw [hc] at h1
    cases h1
  · rename_i d h1
    rw [dropPfx_some_iff] at h1
    have hd : d.data = payload ++ responseWrapperTail.data := by
      have e1 : responseWrapperHead.data ++ d.data =
          responseWrapperHead.data ++ (payload ++ responseWrapperTail.data) := by
        rw [← h1, h, List.append_assoc]
      exact List.append_cancel_left e1
    split
    · rename_i h2
      have hc : dropSfx responseWrapperTail d = some (String.mk payload) := by
        rw [dropSfx_some_iff, string_data_mk, hd]
      rw [hc] at h2
      cases h2
    · rename_i data h2
      rw [dropSfx_some_iff] at h2
      have : payload = data.data := by
        rw [h2] at hd
        exact (List.append_cancel_right hd).symm
      rw [this]

theorem get_new_no_decomp (raw_response : String)
    (h : ∀ payload : List Char,
      raw_response.data ≠ responseWrapperHead.data ++ payload ++ responseWrapperTail.data) :
    WarningList.get_new raw_response = .ok (.error Error.ResponseProcessingError) := by
  unfold WarningList.get_new
  split
  · rfl
  · rename_i d h1
    rw [dropPfx_some_iff] at h1
    split
    · rfl
    · rename_i data h2
      rw [dropSfx_some_iff] at h2
      exact absurd (by rw [h1, h2, List.append_assoc]) (h data.data)

/-- C4. The envelope unwrapper: when the response text is exactly
head ++ payload ++ tail, processing continues on exactly that payload
(deserialization and later steps see the substring strictly between the
envelope literals); and when no such decomposition exists — the text does not
begin with `warnWetter.loadWarnings(` or does not end with `);` — `get_new`
returns `ResponseProcessingError` without any JSON parsing being attempted. -/
theorem c4_envelope_unwrap (raw_response : String) :
    (∀ payload : List Char,
        raw_response.data = responseWrapperHead.data ++ payload ++ responseWrapperTail.data →
        WarningList.get_new raw_response = processPayload (String.mk payload)) ∧
    ((∀ payload : List Char,
        raw_response.data ≠ responseWrapperHead.data ++ payload ++ responseWrapperTail.data) →
        WarningList.get_new raw_response = .ok (.error Error.ResponseProcessingError)) :=
  ⟨fun payload hp => get_new_decomp raw_response payload hp,
   fun hn => get_new_no_decomp raw_response hn⟩

/-- C4 witness: a wrapped payload is passed through; a text without the
envelope fails with `ResponseProcessingError`. -/
theorem c4_witness :
    WarningList.get_new "warnWetter.loadWarnings(X);" = processPayload (String.mk ['X']) ∧
    WarningList.get_new "nope" = .ok (.error Error.ResponseProcessingError) := by
  constructor
  · exact (c4_envelope_unwrap _).1 ['X'] (by decide)
  · refine (c4_envelope_unwrap _).2 ?_
    intro payload hp
    have h24 : responseWrapperHead.data.length = 24 := rfl
    have h2t : responseWrapperTail.data.length = 2 := rfl
    have h4 : ("nope" : String).data.length = 4 := rfl
    have hl := congrArg List.length hp
    rw [List.length_append, List.length_append, h24, h2t, h4] at hl
    omega

/-- C7. A response text with the correct envelope whose payload fails to
deserialize as a `WarningResponse` — malformed JSON or a structure mismatch —
makes `get_new` return a `DeserializationError` wrapping the parser
diagnostic, and no `WarningList` is produced. -/
theorem c7_deserialization_error (raw_response : String) (payload : List Char) (e : String)
    (hshape : raw_response.data =
      responseWrapperHead.data ++ payload ++ responseWrapperTail.data)
    (hserde : serde_from_str (String.mk payload) = .error e) :
    WarningList.get_new raw_response = .ok (.error (Error.DeserializationError e)) := by
  rw [get_new_decomp raw_response payload hshape]
  unfold processPayload
  rw [hserde]

/-- C7 witness: a correctly wrapped but non-JSON payload. -/
theorem c7_witness :
    WarningList.get_new "warnWetter.loadWarnings(notjson);" =
      .ok (.error (Error.DeserializationError "expected value")) :=
  c7_deserialization_error "warnWetter.loadWarnings(notjson);"
    ['n', 'o', 't', 'j', 's', 'o', 'n'] "expected value" (by decide) (by rfl)

/-- C3. Every successfully produced `WarningList` has its warnings sorted
ascending by start timestamp (pairwise non-decreasing), and iterating the
`WarningList` yields exactly that sorted `warnings` sequence. -/
theorem c3_sorted_by_start (raw_response : String) (wl : WarningList)
    (h : WarningList.get_new raw_response = Panics.ok (Except.ok wl)) :
    List.Pairwise (fun a b => a.start ≤ b.start) wl.warnings ∧
    wl.into_iter = wl.warnings := by
  refine ⟨?_, rfl⟩
  unfold WarningList.get_new at h
  split at h
  · simp at h
  · split at h
    · simp at h
    · unfold processPayload at h
      split at h
      · simp at h
      · split at h
        · simp at h
        · simp at h
        · rename_i wl' heq
          injection h with h'
          injection h' with h''
          subst h''
          have hs := @List.sorted_mergeSort Warning
            (fun a b : Warning => decide (a.start ≤ b.start))
            (fun a b c hab hbc =>
              decide_eq_true (le_trans (of_decide_eq_true hab) (of_decide_eq_true hbc)))
            (fun a b => by
              rcases Int.le_total a.start b.start with hab | hba
              · simp [hab]
              · simp [hba])
            wl'.warnings
          exact List.Pairwise.imp (fun hab => of_decide_eq_true hab) hs

/-- Evaluation of the whole pipeline on the scenario text (the sort step is
rewritten with `mergeSort_singleton`, since `mergeSort` does not reduce
definitionally). -/
theorem get_new_c3Text : WarningList.get_new c3Text = Panics.ok (Except.ok c3List) := by
  have h1 : WarningList.get_new c3Text = Panics.ok (Except.ok
      { time := 1700000000000,
        warnings := List.mergeSort [mkWarn 1 2 1700000100000 none]
          (fun a b => decide (a.start ≤ b.start)),
        copyright := "DWD" }) := rfl
  rw [h1, List.mergeSort_singleton]
  rfl

/-- C3 witness: the spec's §8 scenario text produces a singleton, sorted
warning list that iterates to itself. -/
theorem c3_witness :
    List.Pairwise (fun a b => a.start ≤ b.start) c3List.warnings ∧
    c3List.into_iter = c3List.warnings :=
  c3_sorted_by_start c3Text c3List get_new_c3Text

/-! Decoder lemmas: error propagation through the serde model. -/

theorem except_bind_ok (a : α) (f : α → Except ε β) :
    (Except.ok a >>= f : Except ε β) = f a := rfl

theorem except_bind_error (e : ε) (f : α → Except ε β) :
    (Except.error e >>= f : Except ε β) = Except.error e := rfl

theorem mapExcept_error_of_mem (f : α → Except ε β) (l : List α) (a : α)
    (ha : a ∈ l) (hf : ∃ e, f a = .error e) : ∃ e, mapExcept f l = .error e := by
  induction l with
  | nil => cases ha
  | cons x xs ih =>
    rcases List.mem_cons.mp ha with rfl | hmem
    · obtain ⟨e, he⟩ := hf
      exact ⟨e, by simp [mapExcept, he]⟩
    · cases hx : f x with
      | error e => exact ⟨e, by simp [mapExcept, hx]⟩
      | ok b =>
        obtain ⟨e, he⟩ := ih hmem
        exact ⟨e, by simp [mapExcept, hx, he]⟩

theorem reqField_error_of (fields : List (String × Json)) (name : String) (j : Json)
    (dec : Json → Except String α) (hlook : getField fields name = some j)
    (hdec : ∃ e, dec j = .error e) : ∃ e, reqField fields name dec = .error e := by
  obtain ⟨e, he⟩ := hdec
  refine ⟨e, ?_⟩
  unfold reqField
  rw [hlook]
  exact he

theorem decU8_bad (v : Int) (b : Bool) (hv : v < 0 ∨ 255 < v) :
    ∃ e, decU8 (Json.num v b) = .error e := by
  cases b
  · exact ⟨"invalid type: expected u8", rfl⟩
  · refine ⟨"invalid value: integer out of range of u8", ?_⟩
    simp only [decU8]
    rw [if_neg]
    rcases hv with h | h
    · exact fun hc => absurd hc.1 (not_le.mpr h)
    · exact fun hc => absurd hc.2 (not_le.mpr h)

theorem decodeWarningRaw_error_of_badU8 (afs : List (String × Json))
    (hbad : (∃ e, reqField afs "type" decU8 = .error e) ∨
            (∃ e, reqField afs "level" decU8 = .error e)) :
    ∃ e, decodeWarningRaw (Json.obj afs) = .error e := by
  cases h1 : reqField afs "state" decString with
  | error e => exact ⟨e, by simp [decodeWarningRaw, h1, except_bind_error]⟩
  | ok state =>
    rcases hbad with ⟨e2, he2⟩ | ⟨e2, he2⟩
    · exact ⟨e2, by simp [decodeWarningRaw, h1, he2, except_bind_ok, except_bind_error]⟩
    · cases h2 : reqField afs "type" decU8 with
      | error e =>
        exact ⟨e, by simp [decodeWarningRaw, h1, h2, except_bind_ok, except_bind_error]⟩
      | ok cat =>
        exact ⟨e2, by simp [decodeWarningRaw, h1, h2, he2, except_bind_ok, except_bind_error]⟩

theorem decodeWarningsMap_error (groups : List (String × Json)) (gk : String)
    (alerts : List Json) (alert : Json)
    (hg : (gk, Json.arr alerts) ∈ groups) (ha : alert ∈ alerts)
    (hbad : ∃ e, decodeWarningRaw alert = .error e) :
    ∃ e, decodeWarningsMap (Json.obj groups) = .error e := by
  obtain ⟨e, he⟩ := mapExcept_error_of_mem decodeWarningRaw alerts alert ha hbad
  simp only [decodeWarningsMap]
  refine mapExcept_error_of_mem _ groups (gk, Json.arr alerts) hg ?_
  exact ⟨e, by simp [he]⟩

theorem decodeWarningResponse_error_of_field (fields : List (String × Json))
    (hbad : (∃ e, reqField fields "warnings" decodeWarningsMap = .error e) ∨
            (∃ e, reqField fields "vorabInformation" decodeUnitMap = .error e)) :
    ∃ e, decodeWarningResponse (Json.obj fields) = .error e := by
  cases h1 : reqField fields "time" decI64 with
  | error e => exact ⟨e, by simp [decodeWarningResponse, h1, except_bind_error]⟩
  | ok time =>
    rcases hbad with ⟨e2, he2⟩ | ⟨e2, he2⟩
    · exact ⟨e2, by simp [decodeWarningResponse, h1, he2, except_bind_ok, except_bind_error]⟩
    · cases h2 : reqField fields "warnings" decodeWarningsMap with
      | error e =>
        exact ⟨e, by simp [decodeWarningResponse, h1, h2, except_bind_ok, except_bind_error]⟩
      | ok w =>
        exact ⟨e2, by
          simp [decodeWarningResponse, h1, h2, he2, except_bind_ok, except_bind_error]⟩

/-- C9. A wire payload in which some alert's `type` or `level` field holds an
integer that is negative or above 255 cannot deserialize: those fields decode
into `u8`, so `decodeWarningResponse` fails (and `get_new` surfaces every such
failure as a `DeserializationError`). -/
theorem c9_u8_range (fields groups : List (String × Json)) (gk : String)
    (alerts : List Json) (afs : List (String × Json)) (v : Int)
    (hw : getField fields "warnings" = some (Json.obj groups))
    (hg : (gk, Json.arr alerts) ∈ groups)
    (ha : Json.obj afs ∈ alerts)
    (hf : getField afs "type" = some (Json.num v true) ∨
          getField afs "level" = some (Json.num v true))
    (hv : v < 0 ∨ 255 < v) :
    ∃ e, decodeWarningResponse (Json.obj fields) = .error e := by
  have hraw : ∃ e, decodeWarningRaw (Json.obj afs) = .error e := by
    apply decodeWarningRaw_error_of_badU8
    rcases hf with hf | hf
    · exact Or.inl (reqField_error_of afs "type" _ decU8 hf (decU8_bad v true hv))
    · exact Or.inr (reqField_error_of afs "level" _ decU8 hf (decU8_bad v true hv))
  have hmap := decodeWarningsMap_error groups gk alerts (Json.obj afs) hg ha hraw
  exact decodeWarningResponse_error_of_field fields
    (Or.inl (reqField_error_of fields "warnings" _ decodeWarningsMap hw hmap))

/-- C9 witness: a payload whose single alert has `type` 300. -/
theorem c9_witness :
    ∃ e, decodeWarningResponse (Json.obj c9Fields) = Except.error e :=
  c9_u8_range c9Fields
    [("813073088", Json.arr [Json.obj [("type", Json.num 300 true)]])]
    "813073088" [Json.obj [("type", Json.num 300 true)]]
    [("type", Json.num 300 true)] 300
    rfl (List.Mem.head _) (List.Mem.head _) (Or.inl rfl) (Or.inr (by decide))

/-- C10. The `vorabInformation` field decodes into `HashMap<(), ()>`: a
non-empty object there fails deserialization even though the field is unused,
and every successfully decoded response had `vorabInformation` present and
equal to the empty object. -/
theorem c10_vorab_information (fields : List (String × Json)) :
    (∀ es, getField fields "vorabInformation" = some (Json.obj es) → es ≠ [] →
      ∃ e, decodeWarningResponse (Json.obj fields) = .error e) ∧
    (∀ r, decodeWarningResponse (Json.obj fields) = .ok r →
      getField fields "vorabInformation" = some (Json.obj [])) := by
  constructor
  · intro es hlook hne
    apply decodeWarningResponse_error_of_field
    refine Or.inr (reqField_error_of fields "vorabInformation" _ decodeUnitMap hlook ?_)
    cases es with
    | nil => exact absurd rfl hne
    | cons x xs => exact ⟨"invalid type: string, expected unit", rfl⟩
  · intro r hr
    simp only [decodeWarningResponse] at hr
    cases h1 : reqField fields "time" decI64 with
    | error e => simp [h1, except_bind_error] at hr
    | ok time =>
      simp only [h1, except_bind_ok] at hr
      cases h2 : reqField fields "warnings" decodeWarningsMap with
      | error e => simp [h2, except_bind_error] at hr
      | ok w =>
        simp only [h2, except_bind_ok] at hr
        cases h3 : reqField fields "vorabInformation" decodeUnitMap with
        | error e => simp [h3, except_bind_error] at hr
        | ok u =>
          unfold reqField at h3
          cases hlook : getField fields "vorabInformation" with
          | none => rw [hlook] at h3; cases h3
          | some j =>
            rw [hlook] at h3
            cases j with
            | obj es =>
              cases es with
              | nil => rfl
              | cons x xs => cases h3
            | null => cases h3
            | bool b => cases h3
            | num v b => cases h3
            | str s => cases h3
            | arr es => cases h3

/-- C10 witness: a payload with one `vorabInformation` entry fails; a fully
well-formed payload decodes and indeed carries the empty object there. -/
theorem c10_witness :
    (∃ e, decodeWarningResponse (Json.obj c10BadFields) = Except.error e) ∧
    getField c10GoodFields "vorabInformation" = some (Json.obj []) :=
  ⟨(c10_vorab_information c10BadFields).1 [("k", Json.null)] rfl (by simp),
   (c10_vorab_information c10GoodFields).2
     { time := 1700000000000, warnings := [], vorab_information := [],
       copyright := "DWD" }
     (by rfl)⟩

end DwdAlerts
